import Mathlib

/-!
A shallow embedding of the poem crawler `poemhunter.py` and proofs about it.

Conventions of the embedding:
* Python lists of strings become `List String`; in-place index assignment
  `lines[i] = v` becomes `List.set i v`, `del lines[-1]` becomes
  `List.dropLast`.
* Python's `str.lstrip`/`str.rstrip`/`str.strip` become `lstrip`/`rstrip`/
  `strip` below, defined character-wise over the whitespace characters that
  occur in the pages' artifacts (space, tab, CR, LF).
* Network and filesystem effects are oracles attached to each task: a fetch
  yields either raw poem lines or an IOError message, a save either succeeds
  or fails with an IOError message.  Raising `IOError` is modelled by the
  `Except.error` branch.
* lxml details: a break element's `tail` attribute may be `None` in Python
  and the code branches on its falsiness (both `None` and `""` are falsy), so
  tails are modelled as `Option String`.
-/

namespace PoemHunter

/-- ASCII whitespace, the characters `str.strip` removes in the pages'
artifacts (space, tab, carriage return, line feed). -/
def isSpace (c : Char) : Bool := c = ' ' || c = '\t' || c = '\r' || c = '\n'

/-- Python `str.lstrip()`: drop leading whitespace. -/
def lstrip (s : String) : String := String.mk (s.data.dropWhile isSpace)

/-- Python `str.rstrip()`: drop trailing whitespace. -/
def rstrip (s : String) : String := String.mk ((s.data.reverse.dropWhile isSpace).reverse)

/-- Python `str.strip()`: drop whitespace from BOTH ends. -/
def strip (s : String) : String := rstrip (lstrip s)

/-- `_format_poem`, lines 134-139 of `poemhunter.py`: the artifact-stripping
half.  `lines[0] = lines[0].lstrip()`, `lines[-1] = lines[-1].strip()`, then
if the last line became empty it is deleted (`del lines[-1]`) and, if any
line remains, the new last line is stripped as well. -/
def stripEnds (lines : List String) : List String :=
  let a := lines.set 0 (lstrip (lines.headD ""))
  let b := a.set (a.length - 1) (strip (a.getLastD ""))
  if b.getLastD "" = "" then
    let c := b.dropLast
    if c.isEmpty then c
    else c.set (c.length - 1) (strip (c.getLastD ""))
  else b

/-- `_format_poem`, lines 128-148 of `poemhunter.py`: on a non-empty line
list, strip the end artifacts and wrap with the title header (two blank lines
after it) and the poet footer (two blank lines before it); an empty input is
returned unchanged. -/
def formatPoem (title poet : String) (lines : List String) : List String :=
  if lines.isEmpty then lines
  else [title, "", ""] ++ stripEnds lines ++ ["", "", poet]

/-- The stripping half of `normalize` as claim C4 words it: leading
whitespace is stripped from the first line but only TRAILING whitespace from
the last line (its leading whitespace preserved), likewise for the re-strip
after a trailing empty line is dropped.  Kept solely to compare against the
source's `stripEnds`. -/
def stripEndsClaimed (lines : List String) : List String :=
  let a := lines.set 0 (lstrip (lines.headD ""))
  let b := a.set (a.length - 1) (rstrip (a.getLastD ""))
  if b.getLastD "" = "" then
    let c := b.dropLast
    if c.isEmpty then c
    else c.set (c.length - 1) (rstrip (c.getLastD ""))
  else b

/-- `normalize` as claim C4 words it (trailing-only strip of the last line),
full wrapper. -/
def formatPoemClaimed (title poet : String) (lines : List String) : List String :=
  if lines.isEmpty then lines
  else [title, "", ""] ++ stripEndsClaimed lines ++ ["", "", poet]

/-- The stripping half of `normalize` in the amended reading: leading
whitespace stripped from the first line, whitespace stripped from BOTH ends
of the last line; if the last line is then empty it is removed and the new
last line (possibly the first line itself) is stripped on both ends, only if
a last line remains.  Written structurally (cons/dropLast/getLastD) rather
than with index assignment, to be compared against the source's
`stripEnds`. -/
def stripBothSpec : List String → List String
  | [] => []
  | first :: rest =>
    let ls := lstrip first :: rest
    let front := ls.dropLast
    if strip (ls.getLastD "") = "" then
      match front with
      | [] => []
      | g :: gs => (g :: gs).dropLast ++ [strip ((g :: gs).getLastD "")]
    else front ++ [strip (ls.getLastD "")]

/-! ## Document parsing (`_fetch_poem`, lines 106-126)

The xpath mechanics are a pluggable capability; what the embedding keeps is
the shape of the data the code walks: the single content block (the `p`
element), its leading text and the list of `br` elements' tails. -/

/-- The content block of an item page: the paragraph's leading text and the
tail text of each of its break elements (a tail is absent, `none`, when the
break is immediately followed by another break or by the end of the block). -/
structure PoemBlock where
  text : String
  brTails : List (Option String)
deriving DecidableEq

/-- An item page as `_fetch_poem` sees it: empty response body, a parsed DOM
with no content block, or a parsed DOM with the content block. -/
inductive PoemPage where
  | emptyContent
  | withDom (block : Option PoemBlock)
deriving DecidableEq

/-- Lines 119-123: `lines.append(br.tail if br.tail else '')` — a break with
truthy (present, non-empty) tail contributes that tail as the next line; a
break with no tail (or an empty one) contributes an empty line. -/
def brLine : Option String → String
  | some t => if t = "" then "" else t
  | none => ""

/-- `_fetch_poem`, lines 106-126: empty body yields nothing (the source
returns `""`, which iterates as the empty sequence downstream); a DOM without
the content block yields the untouched empty `lines` list; otherwise the
block's text followed by one line per break element, accumulated by the
`for br in brs` loop. -/
def fetchPoemLines : PoemPage → List String
  | .emptyContent => []
  | .withDom none => []
  | .withDom (some b) => b.brTails.foldl (fun lines t => lines ++ [brLine t]) [b.text]

/-! ## Per-item tasks (`download_poem`, lines 79-104)

A task carries its title together with the oracle outcomes of its two
effects: the item-page fetch (`_fetch_poem`) and the file write
(`_save_poem`). -/

/-- One dispatched fetch-and-save task: the item's title, the outcome of
fetching its page (raw poem lines, or an IOError message), and the outcome
the filesystem would give its save (ok, or an IOError message). -/
structure Task where
  title : String
  fetch : Except String (List String)
  save : Except String Unit

/-- The coordinator state `download_poem` touches: `downloaded_poems` (the
dedupe record, in append order) and the files successfully written by
`_save_poem` (title and written content, in write order; a file write is
recorded only when the save succeeds). -/
structure CrawlState where
  downloaded : List String
  saved : List (String × List String)
deriving DecidableEq

/-- `download_poem`, lines 79-104, run atomically: return `False` if the
title is already recorded; otherwise fetch (IOError → report and `False`),
save the formatted poem (IOError → report and `False`), then append the title
to `downloaded_poems` and return `True`. -/
def downloadPoem (poet : String) (t : Task) (st : CrawlState) : Bool × CrawlState :=
  if t.title ∈ st.downloaded then (false, st)
  else
    match t.fetch with
    | .error _ => (false, st)
    | .ok poem =>
      match t.save with
      | .error _ => (false, st)
      | .ok _ =>
        (true, { downloaded := st.downloaded ++ [t.title],
                 saved := st.saved ++ [(t.title, formatPoem t.title poet poem)] })

/-- A task fails when its fetch or its save raises `IOError`. -/
def taskFails (t : Task) : Prop :=
  (∃ e, t.fetch = Except.error e) ∨ (∃ e, t.save = Except.error e)

instance (t : Task) : Decidable (taskFails t) := by
  unfold taskFails
  cases t.fetch <;> cases t.save <;> simp <;> infer_instance

/-- The run of `PoemHunter.run` over the dispatched tasks, with the tasks
executing serially in dispatch order (each task runs to completion before the
next starts).  Returns the final coordinator state and, per task, its title
paired with its `future.result()`; the drain loop at lines 73-77 prints one
verbose "saved" report per `True` result. -/
def runTasks (poet : String) : List Task → CrawlState → CrawlState × List (String × Bool)
  | [], st => (st, [])
  | t :: ts, st =>
    let r := downloadPoem poet t st
    let rest := runTasks poet ts r.2
    (rest.1, (t.title, r.1) :: rest.2)

/-- Number of files written for a given title. -/
def countSaved (st : CrawlState) (title : String) : Nat :=
  (st.saved.filter (fun p => p.1 = title)).length

/-- Number of verbose "saved" reports the drain loop emits for a given title:
one per task of that title whose result is `True`. -/
def countReports (results : List (String × Bool)) (title : String) : Nat :=
  (results.filter (fun p => p.1 = title && p.2)).length

/-! ## Interleaved execution of the worker pool

`download_poem` runs on a `ThreadPoolExecutor`: the dedupe check (line 85)
and the record step (line 103) of two tasks may interleave.  A task is
modelled with a program counter: `pc = 0` before the dedupe check, `pc = 1`
after passing it (fetch/save/record still pending), `pc = 2` done.  A
schedule is a list of task indices; each scheduled index advances that task
by one atomic step. -/

/-- A pool worker running one `download_poem` call. -/
structure TaskProc where
  task : Task
  pc : Nat
  result : Bool

/-- The pool: the workers and the shared `PoemHunter` instance state. -/
structure PoolState where
  procs : List TaskProc
  st : CrawlState

/-- One atomic step of worker `i`: at `pc = 0` perform the dedupe check of
line 85; at `pc = 1` perform the fetch, save and record of lines 88-104. -/
def stepProc (poet : String) (s : PoolState) (i : Nat) : PoolState :=
  match s.procs[i]? with
  | none => s
  | some p =>
    if p.pc = 0 then
      if p.task.title ∈ s.st.downloaded then
        { s with procs := s.procs.set i { p with pc := 2, result := false } }
      else
        { s with procs := s.procs.set i { p with pc := 1 } }
    else if p.pc = 1 then
      match p.task.fetch with
      | .error _ => { s with procs := s.procs.set i { p with pc := 2, result := false } }
      | .ok poem =>
        match p.task.save with
        | .error _ => { s with procs := s.procs.set i { p with pc := 2, result := false } }
        | .ok _ =>
          { procs := s.procs.set i { p with pc := 2, result := true },
            st := { downloaded := s.st.downloaded ++ [p.task.title],
                    saved := s.st.saved ++
                      [(p.task.title, formatPoem p.task.title poet poem)] } }
    else s

/-- Run the pool under a schedule, starting from freshly dispatched tasks and
an empty coordinator state. -/
def runSched (poet : String) (tasks : List Task) (sched : List Nat) : PoolState :=
  sched.foldl (stepProc poet) ⟨tasks.map (fun t => ⟨t, 0, false⟩), ⟨[], []⟩⟩

/-! ## Pagination (`PoemHunter.run`, lines 44-71) -/

/-- What fetching and parsing listing page `n` yields: the `requests.get`
raising `IOError`; an empty response body; or a parsed page with its items
(title, href) and whether an xpath "next" link is present. -/
inductive PageResult where
  | fetchError
  | emptyBody
  | page (items : List (String × String)) (hasNext : Bool)
deriving DecidableEq

/-- The three loop-exit conditions of lines 49-70: fetch raised, body empty,
or no "next" link on the parsed page. -/
def pageStops : PageResult → Bool
  | .fetchError => true
  | .emptyBody => true
  | .page _ hasNext => !hasNext

/-- The listing pages fetched by the `while True` loop of lines 46-71,
starting at page `n`, against a remote oracle.  A page that raises or comes
back empty is still fetched (it is the attempt that stops the loop); a page
without a "next" link is the last one fetched.  `fuel` bounds the recursion;
all theorems assume fuel at least covering the first stopping page. -/
def crawlPages (oracle : Nat → PageResult) : Nat → Nat → List Nat
  | 0, _ => []
  | fuel + 1, n =>
    match oracle n with
    | .fetchError => [n]
    | .emptyBody => [n]
    | .page _ hasNext => if hasNext then n :: crawlPages oracle fuel (n + 1) else [n]

/-! ## Top-poets mode (`parse_top_poets`, lines 157-196) -/

/-- What fetching and parsing top-poets listing page `n` yields (the function
has no try/except, so a fetch error would propagate; the claims here concern
the well-formed listing paths): empty body, or a page of poet names plus the
"next" link flag. -/
inductive TopPageResult where
  | emptyBody
  | page (poets : List String) (hasNext : Bool)
deriving DecidableEq

/-- Pagination stop condition of `parse_top_poets`: empty body or no "next"
link. -/
def topStops : TopPageResult → Bool
  | .emptyBody => true
  | .page _ hasNext => !hasNext

/-- The poet names a top-poets page contributes. -/
def pagePoets : TopPageResult → List String
  | .emptyBody => []
  | .page ps _ => ps

/-- The outcome of `parse_top_poets`: the author crawls dispatched to the
executor, in dispatch order, and whether the function left through the early
`return` at line 186 (count reached) — in which case the `as_completed`
drain loop at lines 193-196 is never entered. -/
structure TopRun where
  dispatched : List String
  early : Bool
deriving DecidableEq

/-- The inner `for poet in poets` loop of lines 176-186: dispatch each poet,
increment `n_poets`, and `return` as soon as `n_poets == number`. -/
def dispatchPoets (number : Nat) : List String → Nat → List String → List String × Nat × Bool
  | [], n, acc => (acc, n, false)
  | p :: ps, n, acc =>
    let acc' := acc ++ [p]
    let n' := n + 1
    if n' = number then (acc', n', true) else dispatchPoets number ps n' acc'

/-- The `while True` page loop of lines 169-191 of `parse_top_poets`.
`fuel` bounds the recursion; theorems assume fuel covering the stopping
page. -/
def topLoop (number : Nat) (oracle : Nat → TopPageResult) :
    Nat → Nat → Nat → List String → TopRun
  | 0, _, _, acc => ⟨acc, false⟩
  | fuel + 1, pageNo, n, acc =>
    match oracle pageNo with
    | .emptyBody => ⟨acc, false⟩
    | .page poets hasNext =>
      let d := dispatchPoets number poets n acc
      if d.2.2 then ⟨d.1, true⟩
      else if hasNext then topLoop number oracle fuel (pageNo + 1) d.2.1 d.1
      else ⟨d.1, false⟩

/-- The page loop of `parse_top_poets` for a requested count, from page 1
with zero poets dispatched.  This is the function's behaviour after the
executor construction of line 164 has succeeded; the construction itself is
modelled by `parseTopPoets` below. -/
def topCrawl (number : Nat) (oracle : Nat → TopPageResult) (fuel : Nat) : TopRun :=
  topLoop number oracle fuel 1 0 []

/-- `parse_top_poets`, lines 157-196, whole: line 164 constructs
`ThreadPoolExecutor(min(args.number, 10))` before the page loop, and
`ThreadPoolExecutor` raises `ValueError` when its `max_workers` argument is
not positive — so with `min(number, 10) = 0` the function raises before any
page is fetched or any author crawl dispatched; otherwise the page loop
runs. -/
def parseTopPoets (number : Nat) (oracle : Nat → TopPageResult) (fuel : Nat) :
    Except String TopRun :=
  if min number 10 = 0 then Except.error "max_workers must be greater than 0"
  else Except.ok (topCrawl number oracle fuel)

/-- The author crawls a `parse_top_poets` call submits to its executor: none
when the executor construction raises, otherwise the page loop's dispatch
list. -/
def topDispatched : Except String TopRun → List String
  | .error _ => []
  | .ok r => r.dispatched

/-- The author-crawl futures `parse_top_poets` awaits before returning: all
of them when the drain loop runs, none when the early `return` at line 186
skips it. -/
def topAwaited (r : TopRun) : List String :=
  if r.early then [] else r.dispatched

/-- The poet names of listing pages `1..k` in listing order. -/
def poetsFrom (oracle : Nat → TopPageResult) : Nat → Nat → List String
  | _, 0 => []
  | j, m + 1 => pagePoets (oracle j) ++ poetsFrom oracle (j + 1) m

/-! ## download_poem case analysis -/

theorem downloadPoem_mem (poet : String) (t : Task) (st : CrawlState)
    (h : t.title ∈ st.downloaded) : downloadPoem poet t st = (false, st) := by
  unfold downloadPoem
  rw [if_pos h]

theorem downloadPoem_fail (poet : String) (t : Task) (st : CrawlState)
    (h : taskFails t) : downloadPoem poet t st = (false, st) := by
  unfold downloadPoem
  by_cases hm : t.title ∈ st.downloaded
  · rw [if_pos hm]
  · rw [if_neg hm]
    rcases h with ⟨e, hf⟩ | ⟨e, hs⟩
    · rw [hf]
    · cases hfet : t.fetch with
      | error e2 => rfl
      | ok poem => rw [hs]

theorem downloadPoem_succ (poet : String) (t : Task) (st : CrawlState) (poem : List String)
    (hm : t.title ∉ st.downloaded) (hf : t.fetch = Except.ok poem)
    (hs : t.save = Except.ok ()) :
    downloadPoem poet t st
      = (true, ⟨st.downloaded ++ [t.title],
                st.saved ++ [(t.title, formatPoem t.title poet poem)]⟩) := by
  unfold downloadPoem
  rw [if_neg hm, hf, hs]

theorem downloadPoem_cases (poet : String) (t : Task) (st : CrawlState) :
    downloadPoem poet t st = (false, st) ∨
    (t.title ∉ st.downloaded ∧ ∃ poem, t.fetch = Except.ok poem ∧ t.save = Except.ok () ∧
      downloadPoem poet t st
        = (true, ⟨st.downloaded ++ [t.title],
                  st.saved ++ [(t.title, formatPoem t.title poet poem)]⟩)) := by
  by_cases hm : t.title ∈ st.downloaded
  · exact Or.inl (downloadPoem_mem poet t st hm)
  · cases hfet : t.fetch with
    | error e => exact Or.inl (downloadPoem_fail poet t st (Or.inl ⟨e, hfet⟩))
    | ok poem =>
      cases hsv : t.save with
      | error e => exact Or.inl (downloadPoem_fail poet t st (Or.inr ⟨e, hsv⟩))
      | ok u =>
        cases u
        exact Or.inr ⟨hm, poem, rfl, rfl, downloadPoem_succ poet t st poem hm hfet hsv⟩

/-- C10: a failed task leaves the dedupe record unchanged and resolves as
`False`; since the title was not recorded, a later task for the same title
in the same run is not blocked and succeeds when its fetch and save succeed;
and in general `download_poem` returns `True` exactly when it appended its
title to `downloaded_poems` during that call. -/
theorem download_result_flags (poet : String) (t : Task) (st : CrawlState)
    (t2 : Task) (poem : List String)
    (hfail : taskFails t) (hmem : t.title ∉ st.downloaded)
    (htitle : t2.title = t.title) (hf2 : t2.fetch = Except.ok poem)
    (hs2 : t2.save = Except.ok ()) :
    (downloadPoem poet t st).1 = false ∧
    (downloadPoem poet t st).2.downloaded = st.downloaded ∧
    (downloadPoem poet t2 (downloadPoem poet t st).2).1 = true ∧
    (∀ u : Task, ∀ su : CrawlState,
      (downloadPoem poet u su).1 = true
        ↔ (downloadPoem poet u su).2.downloaded = su.downloaded ++ [u.title]) := by
  have h1 := downloadPoem_fail poet t st hfail
  refine ⟨by rw [h1], by rw [h1], ?_, ?_⟩
  · rw [h1]
    have hm2 : t2.title ∉ st.downloaded := by rw [htitle]; exact hmem
    rw [downloadPoem_succ poet t2 st poem hm2 hf2 hs2]
  · intro u su
    rcases downloadPoem_cases poet u su with h | ⟨hm, poem2, hf, hs, h⟩
    · rw [h]
      constructor
      · intro hfalse; cases hfalse
      · intro habs
        exfalso
        have := congrArg List.length habs
        simp at this
    · rw [h]
      simp

/-- C10 witness: a fetch-failing "Rain" task on the fresh coordinator state,
followed by a successful "Rain" task. -/
theorem download_result_flags_witness :
    (downloadPoem "P" ⟨"Rain", Except.error "boom", Except.ok ()⟩ ⟨[], []⟩).1 = false ∧
    (downloadPoem "P" ⟨"Rain", Except.error "boom", Except.ok ()⟩ ⟨[], []⟩).2.downloaded = [] ∧
    (downloadPoem "P" ⟨"Rain", Except.ok ["drip"], Except.ok ()⟩
      (downloadPoem "P" ⟨"Rain", Except.error "boom", Except.ok ()⟩ ⟨[], []⟩).2).1 = true ∧
    (∀ u : Task, ∀ su : CrawlState,
      (downloadPoem "P" u su).1 = true
        ↔ (downloadPoem "P" u su).2.downloaded = su.downloaded ++ [u.title]) :=
  download_result_flags "P" ⟨"Rain", Except.error "boom", Except.ok ()⟩ ⟨[], []⟩
    ⟨"Rain", Except.ok ["drip"], Except.ok ()⟩ ["drip"]
    (Or.inl ⟨"boom", rfl⟩) (by decide) rfl rfl rfl

/-! ## The serialized run -/

theorem runTasks_append (poet : String) (l1 l2 : List Task) (st : CrawlState) :
    runTasks poet (l1 ++ l2) st =
      ((runTasks poet l2 (runTasks poet l1 st).1).1,
        (runTasks poet l1 st).2 ++ (runTasks poet l2 (runTasks poet l1 st).1).2) := by
  induction l1 generalizing st with
  | nil => simp [runTasks]
  | cons t ts ih =>
    simp only [List.cons_append, runTasks, List.append_eq]
    rw [ih]

/-- C7: a task whose fetch or save raises IOError is contained: it resolves
as `(title, False)` without raising into the coordinator, the final
coordinator state is the same as if the task had not been dispatched, and
the results of every other task of the run are unchanged. -/
theorem failure_contained (poet : String) (pre post : List Task) (t : Task) (st : CrawlState)
    (hfail : taskFails t) :
    (runTasks poet (pre ++ t :: post) st).1 = (runTasks poet (pre ++ post) st).1 ∧
    (runTasks poet (pre ++ t :: post) st).2 =
      (runTasks poet pre st).2
        ++ (t.title, false) :: (runTasks poet post (runTasks poet pre st).1).2 := by
  have hstep : ∀ s, runTasks poet (t :: post) s
      = ((runTasks poet post s).1, (t.title, false) :: (runTasks poet post s).2) := by
    intro s
    simp only [runTasks]
    rw [downloadPoem_fail poet t s hfail]
  rw [runTasks_append poet pre (t :: post) st, runTasks_append poet pre post st,
    hstep (runTasks poet pre st).1]
  exact ⟨rfl, rfl⟩

/-- C7 witness: a failing "Rain" task between two successful tasks; the
final state ignores it and the siblings' results are unchanged. -/
theorem failure_contained_witness :
    (runTasks "P" ([⟨"Dusk", Except.ok ["dim"], Except.ok ()⟩]
        ++ ⟨"Rain", Except.error "boom", Except.ok ()⟩
          :: [⟨"Moon", Except.ok ["glow"], Except.ok ()⟩]) ⟨[], []⟩).1
      = (runTasks "P" ([⟨"Dusk", Except.ok ["dim"], Except.ok ()⟩]
          ++ [⟨"Moon", Except.ok ["glow"], Except.ok ()⟩]) ⟨[], []⟩).1 ∧
    (runTasks "P" ([⟨"Dusk", Except.ok ["dim"], Except.ok ()⟩]
        ++ ⟨"Rain", Except.error "boom", Except.ok ()⟩
          :: [⟨"Moon", Except.ok ["glow"], Except.ok ()⟩]) ⟨[], []⟩).2
      = (runTasks "P" [⟨"Dusk", Except.ok ["dim"], Except.ok ()⟩] ⟨[], []⟩).2
          ++ ("Rain", false)
            :: (runTasks "P" [⟨"Moon", Except.ok ["glow"], Except.ok ()⟩]
              (runTasks "P" [⟨"Dusk", Except.ok ["dim"], Except.ok ()⟩] ⟨[], []⟩).1).2 :=
  failure_contained "P" [⟨"Dusk", Except.ok ["dim"], Except.ok ()⟩]
    [⟨"Moon", Except.ok ["glow"], Except.ok ()⟩]
    ⟨"Rain", Except.error "boom", Except.ok ()⟩ ⟨[], []⟩ (Or.inl ⟨"boom", rfl⟩)

end PoemHunter

namespace PoemHunter

/-! ## List helpers -/

theorem setLast_eq {α : Type} (l : List α) (v : α) (h : l ≠ []) :
    l.set (l.length - 1) v = l.dropLast ++ [v] := by
  induction l with
  | nil => exact absurd rfl h
  | cons x xs ih =>
    cases xs with
    | nil => rfl
    | cons y ys =>
      have hy := ih (by simp)
      simp only [List.length_cons, Nat.add_sub_cancel] at hy ⊢
      simp only [List.set]
      rw [hy]
      rfl

/-! ## C4: the normalizer strips the last line on both ends -/

/-- C4 (amended): for every input, the artifact-stripping step of `normalize`
(`stripEnds`, the index-assignment code of `_format_poem`) agrees with the
amended specification `stripBothSpec`: leading whitespace is stripped from
the first line, whitespace is stripped from BOTH ends of the last line (not
only trailing), and if the last line is then empty it is removed and the new
last line is re-stripped on both ends, only if a last line remains. -/
theorem strip_both_ends (lines : List String) : stripEnds lines = stripBothSpec lines := by
  cases lines with
  | nil => rfl
  | cons first rest =>
    unfold stripEnds stripBothSpec
    simp only [List.headD_cons, List.set_cons_zero]
    rw [setLast_eq _ _ (List.cons_ne_nil _ _), List.getLastD_concat, List.dropLast_concat]
    by_cases hlast : strip ((lstrip first :: rest).getLastD "") = ""
    · rw [if_pos hlast, if_pos hlast]
      cases hfront : (lstrip first :: rest).dropLast with
      | nil => simp
      | cons g gs =>
        simp only [List.isEmpty_cons, Bool.false_eq_true, if_false]
        rw [setLast_eq _ _ (List.cons_ne_nil _ _)]
    · rw [if_neg hlast, if_neg hlast]

/-- C4 (counterexample): the claim as stated — leading whitespace of the last
line is preserved, only trailing whitespace stripped — is false of the code.
On the body `["x", " y"]` the code (`formatPoem`, from `_format_poem`'s
`lines[-1].strip()`) also strips the leading space of the last line, while
the claim's reading (`formatPoemClaimed`) keeps it. -/
theorem strip_trailing_only_cex :
    formatPoem "T" "A" ["x", " y"] ≠ formatPoemClaimed "T" "A" ["x", " y"] ∧
    formatPoem "T" "A" ["x", " y"] = ["T", "", "", "x", "y", "", "", "A"] ∧
    formatPoemClaimed "T" "A" ["x", " y"] = ["T", "", "", "x", " y", "", "", "A"] := by
  refine ⟨?_, by decide, by decide⟩
  decide

/-- C6: on the empty `RawLines` input, `normalize` (`_format_poem`) returns
the input unchanged — the empty sequence, with no header, blank lines or
footer inserted. -/
theorem format_empty_noop (title poet : String) : formatPoem title poet [] = [] := rfl

/-- C5: on every non-empty `RawLines` input the output of `normalize`
(`_format_poem`) is non-empty and has the canonical layout
`[title, "", "", ...body..., "", "", poet]`: first line the title, exactly
two blank lines after it, exactly two blank lines before the final line,
which is the poet's name. -/
theorem format_layout (title poet : String) (lines : List String) (h : lines ≠ []) :
    (∃ body, formatPoem title poet lines = [title, "", ""] ++ (body ++ ["", "", poet])) ∧
    (formatPoem title poet lines).headD "" = title ∧
    (formatPoem title poet lines).getLastD "" = poet ∧
    formatPoem title poet lines ≠ [] := by
  have hne : lines.isEmpty = false := by
    cases lines with
    | nil => exact absurd rfl h
    | cons a as => rfl
  unfold formatPoem
  rw [hne]
  simp only [Bool.false_eq_true, if_false]
  refine ⟨⟨stripEnds lines, rfl⟩, rfl, ?_, by simp⟩
  have : [title, "", ""] ++ stripEnds lines ++ ["", "", poet]
      = ([title, "", ""] ++ stripEnds lines ++ ["", ""]) ++ [poet] := by simp
  rw [this, List.getLastD_concat]

/-- C5 witness: the spec's concrete scenario, title "T", author "A", body
from the break-marker example. -/
theorem format_layout_witness :
    (∃ body, formatPoem "T" "A" ["Line one", "Line two", "", "Line three"]
        = ["T", "", ""] ++ (body ++ ["", "", "A"])) ∧
    (formatPoem "T" "A" ["Line one", "Line two", "", "Line three"]).headD "" = "T" ∧
    (formatPoem "T" "A" ["Line one", "Line two", "", "Line three"]).getLastD "" = "A" ∧
    formatPoem "T" "A" ["Line one", "Line two", "", "Line three"] ≠ [] :=
  format_layout "T" "A" ["Line one", "Line two", "", "Line three"] (by decide)

/-! ## C9: document parsing -/

theorem foldl_brLine (ts : List (Option String)) (acc : List String) :
    ts.foldl (fun lines t => lines ++ [brLine t]) acc = acc ++ ts.map brLine := by
  induction ts generalizing acc with
  | nil => simp
  | cons t ts ih => simp [List.foldl_cons, ih]

/-- C9: `parseDocument` (`_fetch_poem`) turns the content block into its
leading text followed by one logical line per explicit break marker: a break
whose tail text is present and non-empty yields that text as the next line,
a break with no (or empty) tail yields an empty line; the block
"Line one<br>Line two<br><br>Line three" yields
`["Line one", "Line two", "", "Line three"]`; and an empty response body or
an absent content block yields the empty sequence. -/
theorem parse_document_breaks :
    (∀ text tails, fetchPoemLines (.withDom (some ⟨text, tails⟩)) = text :: tails.map brLine) ∧
    (∀ t : String, t = "" ∨ brLine (some t) = t) ∧
    brLine none = "" ∧
    brLine (some "") = "" ∧
    fetchPoemLines .emptyContent = [] ∧
    fetchPoemLines (.withDom none) = [] ∧
    fetchPoemLines (.withDom (some ⟨"Line one", [some "Line two", none, some "Line three"]⟩))
      = ["Line one", "Line two", "", "Line three"] := by
  refine ⟨fun text tails => ?_, fun t => ?_, rfl, by decide, rfl, rfl, by decide⟩
  · show List.foldl (fun lines t => lines ++ [brLine t]) [text] tails = text :: tails.map brLine
    rw [foldl_brLine]
    rfl
  · by_cases ht : t = ""
    · exact Or.inl ht
    · exact Or.inr (by simp [brLine, ht])
/-! ## C2: pagination -/

theorem crawlPages_char (oracle : Nat → PageResult) (k : Nat)
    (hstop : pageStops (oracle k) = true)
    (hbefore : ∀ m, m < k → 1 ≤ m → pageStops (oracle m) = false) :
    ∀ fuel j, 1 ≤ j → j ≤ k → k + 1 - j ≤ fuel →
      crawlPages oracle fuel j = List.range' j (k + 1 - j) := by
  intro fuel
  induction fuel with
  | zero => intro j h1 h2 h3; omega
  | succ fuel ih =>
    intro j h1 h2 h3
    rcases Nat.lt_or_ge j k with hlt | hge
    · have hs := hbefore j hlt h1
      cases ho : oracle j with
      | fetchError => rw [ho] at hs; simp [pageStops] at hs
      | emptyBody => rw [ho] at hs; simp [pageStops] at hs
      | page items hasNext =>
        rw [ho] at hs
        simp [pageStops] at hs
        simp only [crawlPages, ho, hs, if_true]
        rw [ih (j + 1) (by omega) (by omega) (by omega)]
        rw [show k + 1 - j = (k - j) + 1 by omega]
        rw [show k + 1 - (j + 1) = k - j by omega]
        rfl
    · have hjk : j = k := by omega
      subst hjk
      rw [show j + 1 - j = 1 by omega]
      cases ho : oracle j with
      | fetchError => simp [crawlPages, ho, List.range']
      | emptyBody => simp [crawlPages, ho, List.range']
      | page items hasNext =>
        rw [ho] at hstop
        simp [pageStops] at hstop
        simp [crawlPages, ho, hstop, List.range']

/-- C2: the pagination loop of `PoemHunter.run` fetches listing pages in
increasing order starting at page 1 and stops exactly at the first page
whose fetch raises, whose body is empty, or whose parsed DOM has no "next"
link: the pages fetched are precisely `1, 2, ..., k` where `k` is that first
stopping page, and no page beyond `k` is ever fetched. -/
theorem pagination_stops (oracle : Nat → PageResult) (k fuel : Nat)
    (hk : 1 ≤ k) (hstop : pageStops (oracle k) = true)
    (hbefore : ∀ m, m < k → 1 ≤ m → pageStops (oracle m) = false)
    (hfuel : k ≤ fuel) :
    crawlPages oracle fuel 1 = List.range' 1 k := by
  have h := crawlPages_char oracle k hstop hbefore fuel 1 le_rfl hk (by omega)
  rwa [show k + 1 - 1 = k by omega] at h

/-- C2 witness: a listing whose page 1 has a "next" link and whose page 2
does not; exactly pages 1 and 2 are fetched, in that order. -/
theorem pagination_stops_witness :
    crawlPages
      (fun n => if n = 1 then PageResult.page [("Rain", "/poem/rain/")] true
        else PageResult.page [("Rain", "/poem/rain/")] false) 10 1
      = List.range' 1 2 :=
  pagination_stops
    (fun n => if n = 1 then PageResult.page [("Rain", "/poem/rain/")] true
      else PageResult.page [("Rain", "/poem/rain/")] false) 2 10
    (by decide) (by decide) (by decide) (by decide)

/-! ## C3: the collection coordinator returns before draining -/

/-- C3 (failing-input evaluation): with requested count 1 and a top-poets
listing whose first page lists poets "A" and "B", `parse_top_poets`
dispatches the author crawl for "A" and then leaves through the early
`return` (line 186), skipping the `as_completed` drain loop entirely: it
returns to its caller having awaited none of its dispatched tasks.  This
contradicts the claim that a coordinator never returns while a task it
dispatched is unresolved (the per-author coordinator `PoemHunter.run` does
drain fully; the collection coordinator does not). -/
theorem top_drain_early_return :
    (topCrawl 1
      (fun n => if n = 1 then TopPageResult.page ["A", "B"] true else TopPageResult.emptyBody)
      5).dispatched = ["A"] ∧
    (topCrawl 1
      (fun n => if n = 1 then TopPageResult.page ["A", "B"] true else TopPageResult.emptyBody)
      5).early = true ∧
    topAwaited (topCrawl 1
      (fun n => if n = 1 then TopPageResult.page ["A", "B"] true else TopPageResult.emptyBody)
      5) = [] := by
  exact ⟨by decide, by decide, by decide⟩

/-! ## C8: top-poets dispatch -/

theorem dispatchPoets_spec (number : Nat) :
    ∀ (ps : List String) (acc : List String), acc.length < number →
      dispatchPoets number ps acc.length acc =
        if number ≤ acc.length + ps.length
        then ((acc ++ ps).take number, number, true)
        else (acc ++ ps, acc.length + ps.length, false) := by
  intro ps
  induction ps with
  | nil =>
    intro acc hn
    rw [if_neg (by simp; omega)]
    simp [dispatchPoets]
  | cons p ps ih =>
    intro acc hn
    simp only [dispatchPoets]
    by_cases he : acc.length + 1 = number
    · rw [if_pos he]
      rw [if_pos (by simp; omega)]
      have ht : (acc ++ p :: ps).take number = acc ++ [p] := by
        rw [List.take_append_eq_append_take]
        rw [List.take_of_length_le (by omega)]
        rw [show number - acc.length = 1 by omega]
        rfl
      rw [ht, he]
    · rw [if_neg he]
      have hlt : (acc ++ [p]).length < number := by simp; omega
      have := ih (acc ++ [p]) hlt
      rw [show (acc ++ [p]).length = acc.length + 1 from by simp] at this
      rw [this]
      by_cases hc : number ≤ acc.length + (p :: ps).length
      · rw [if_pos (by simp at hc ⊢; omega), if_pos hc]
        simp
      · rw [if_neg (by simp at hc ⊢; omega), if_neg hc]
        simp
        omega

theorem topLoop_char (number : Nat) (oracle : Nat → TopPageResult) (k : Nat)
    (hstop : topStops (oracle k) = true)
    (hbefore : ∀ m, m < k → 1 ≤ m → topStops (oracle m) = false) :
    ∀ fuel j acc, 1 ≤ j → j ≤ k → k + 1 - j ≤ fuel → acc.length < number →
      (topLoop number oracle fuel j acc.length acc).dispatched
        = (acc ++ poetsFrom oracle j (k + 1 - j)).take number := by
  intro fuel
  induction fuel with
  | zero => intro j acc h1 h2 h3 h4; omega
  | succ fuel ih =>
    intro j acc h1 h2 h3 h4
    rw [show k + 1 - j = (k - j) + 1 by omega]
    simp only [poetsFrom]
    cases ho : oracle j with
    | emptyBody =>
      have hjk : j = k := by
        by_contra hne
        have hb := hbefore j (by omega) h1
        rw [ho] at hb
        simp [topStops] at hb
      subst hjk
      simp only [topLoop, ho, pagePoets]
      rw [show j - j = 0 by omega]
      simp only [poetsFrom, List.nil_append, List.append_nil]
      have hta : acc.take number = acc := List.take_of_length_le (by omega)
      rw [hta]
    | page poets hasNext =>
      simp only [topLoop, ho, pagePoets]
      rw [dispatchPoets_spec number poets acc h4]
      by_cases hfull : number ≤ acc.length + poets.length
      · rw [if_pos hfull]
        simp only [if_true]
        have hta : ((acc ++ poets) ++ poetsFrom oracle (j + 1) (k - j)).take number
            = (acc ++ poets).take number :=
          List.take_append_of_le_length (by simp; omega)
        rw [← List.append_assoc, hta]
      · rw [if_neg hfull]
        dsimp only
        rw [if_neg (by simp)]
        cases hnx : hasNext with
        | true =>
          have hjk : j < k := by
            by_contra hge
            have hj : j = k := by omega
            rw [← hj, ho] at hstop
            simp [topStops, hnx] at hstop
          have hrec := ih (j + 1) (acc ++ poets) (by omega) (by omega) (by omega)
            (by simp; omega)
          rw [show (acc ++ poets).length = acc.length + poets.length from by simp] at hrec
          rw [if_pos rfl]
          rw [hrec]
          rw [show k + 1 - (j + 1) = k - j by omega]
          rw [List.append_assoc]
        | false =>
          have hjk : j = k := by
            by_contra hne
            have hb := hbefore j (by omega) h1
            rw [ho, hnx] at hb
            simp [topStops] at hb
          subst hjk
          rw [if_neg (by simp)]
          dsimp only
          rw [show j - j = 0 by omega]
          simp only [poetsFrom, List.append_nil]
          have hta : (acc ++ poets).take number = acc ++ poets :=
            List.take_of_length_le (by simp; omega)
          rw [hta]

/-- C8: for every requested count N, `parse_top_poets` dispatches author
crawls for exactly the first N poets of the listing in listing order across
pages — fewer only when the listing is exhausted first — stopping
immediately when the count is reached, even mid-page; no poet after the N-th
is dispatched.  For N ≥ 1 this is the page loop's dispatch-and-count logic;
for N = 0 the `ThreadPoolExecutor(min(args.number, 10))` construction at
line 164 raises `ValueError` before the loop, so exactly zero authors are
dispatched, which is `take 0` of the listing. -/
theorem top_dispatch_count (number k fuel : Nat) (oracle : Nat → TopPageResult)
    (hk : 1 ≤ k) (hstop : topStops (oracle k) = true)
    (hbefore : ∀ m, m < k → 1 ≤ m → topStops (oracle m) = false)
    (hfuel : k ≤ fuel) :
    topDispatched (parseTopPoets number oracle fuel)
      = (poetsFrom oracle 1 k).take number := by
  by_cases h0 : number = 0
  · subst h0
    rfl
  · unfold parseTopPoets
    rw [if_neg (by omega)]
    show (topCrawl number oracle fuel).dispatched = _
    have h := topLoop_char number oracle k hstop hbefore fuel 1 [] le_rfl hk (by omega)
      (by simp; omega)
    unfold topCrawl
    rw [show (0 : Nat) = ([] : List String).length from rfl]
    rw [h]
    rw [show k + 1 - 1 = k by omega]
    rfl

/-- C8 witness: count 2 over a listing with page 1 = ["A"] (next), page 2 =
["B", "C"] (next), page 3 empty: dispatch stops mid page 2 after "B"; and
the same listing with count 0: the executor construction raises and nothing
is dispatched. -/
theorem top_dispatch_count_witness :
    topDispatched (parseTopPoets 2
      (fun n => if n = 1 then TopPageResult.page ["A"] true
        else if n = 2 then TopPageResult.page ["B", "C"] true
        else TopPageResult.emptyBody) 10)
      = (poetsFrom
          (fun n => if n = 1 then TopPageResult.page ["A"] true
            else if n = 2 then TopPageResult.page ["B", "C"] true
            else TopPageResult.emptyBody) 1 3).take 2 ∧
    topDispatched (parseTopPoets 0
      (fun n => if n = 1 then TopPageResult.page ["A"] true
        else if n = 2 then TopPageResult.page ["B", "C"] true
        else TopPageResult.emptyBody) 10)
      = (poetsFrom
          (fun n => if n = 1 then TopPageResult.page ["A"] true
            else if n = 2 then TopPageResult.page ["B", "C"] true
            else TopPageResult.emptyBody) 1 3).take 0 :=
  ⟨top_dispatch_count 2 3 10
    (fun n => if n = 1 then TopPageResult.page ["A"] true
      else if n = 2 then TopPageResult.page ["B", "C"] true
      else TopPageResult.emptyBody)
    (by decide) (by decide) (by decide) (by decide),
   top_dispatch_count 0 3 10
    (fun n => if n = 1 then TopPageResult.page ["A"] true
      else if n = 2 then TopPageResult.page ["B", "C"] true
      else TopPageResult.emptyBody)
    (by decide) (by decide) (by decide) (by decide)⟩

/-! ## C1: deduplication -/

theorem filter_title_snoc (s : List (String × List String)) (x : String) (cnt : List String)
    (title : String) :
    (s ++ [(x, cnt)]).filter (fun p => p.1 = title)
      = s.filter (fun p => p.1 = title) ++ if x = title then [(x, cnt)] else [] := by
  rw [List.filter_append]
  by_cases hx : x = title <;> simp [hx]

theorem countReports_cons (x : String) (b : Bool) (rs : List (String × Bool)) (title : String) :
    countReports ((x, b) :: rs) title
      = (if x = title ∧ b = true then 1 else 0) + countReports rs title := by
  unfold countReports
  by_cases hx : x = title <;> cases b <;> simp [hx]
  omega

theorem countReports_append (a b : List (String × Bool)) (title : String) :
    countReports (a ++ b) title = countReports a title + countReports b title := by
  unfold countReports
  rw [List.filter_append, List.length_append]

theorem countSaved_filter (st : CrawlState) (title : String) :
    countSaved st title = (st.saved.filter (fun p => p.1 = title)).length := rfl

theorem runTasks_blocked (poet title : String) (ts : List Task) (st : CrawlState)
    (h : title ∈ st.downloaded) :
    ((runTasks poet ts st).1.saved.filter (fun p => p.1 = title)
        = st.saved.filter (fun p => p.1 = title)) ∧
    title ∈ (runTasks poet ts st).1.downloaded ∧
    countReports (runTasks poet ts st).2 title = 0 := by
  induction ts generalizing st with
  | nil => exact ⟨rfl, h, rfl⟩
  | cons t rest ih =>
    rcases downloadPoem_cases poet t st with hc | ⟨hm, poem, hf, hs, hc⟩
    · simp only [runTasks, hc]
      obtain ⟨h1, h2, h3⟩ := ih st h
      refine ⟨h1, h2, ?_⟩
      rw [countReports_cons, h3]
      simp
    · have hne : t.title ≠ title := fun he => hm (he ▸ h)
      simp only [runTasks, hc]
      set st2 : CrawlState :=
        ⟨st.downloaded ++ [t.title], st.saved ++ [(t.title, formatPoem t.title poet poem)]⟩
        with hst2
      have hmem2 : title ∈ st2.downloaded := by
        rw [hst2]
        exact List.mem_append.mpr (Or.inl h)
      obtain ⟨h1, h2, h3⟩ := ih st2 hmem2
      refine ⟨?_, h2, ?_⟩
      · rw [h1, hst2]
        show (st.saved ++ [(t.title, formatPoem t.title poet poem)]).filter
            (fun p => p.1 = title) = _
        rw [filter_title_snoc]
        simp [hne]
      · rw [countReports_cons, h3]
        simp [hne]

theorem runTasks_other (poet title : String) (ts : List Task) (st : CrawlState)
    (h : ∀ u ∈ ts, u.title ≠ title) :
    ((runTasks poet ts st).1.saved.filter (fun p => p.1 = title)
        = st.saved.filter (fun p => p.1 = title)) ∧
    (title ∈ (runTasks poet ts st).1.downloaded ↔ title ∈ st.downloaded) ∧
    countReports (runTasks poet ts st).2 title = 0 := by
  induction ts generalizing st with
  | nil => exact ⟨rfl, Iff.rfl, rfl⟩
  | cons t rest ih =>
    have hne : t.title ≠ title := h t (List.mem_cons_self t rest)
    have hrest : ∀ u ∈ rest, u.title ≠ title := fun u hu => h u (List.mem_cons_of_mem t hu)
    rcases downloadPoem_cases poet t st with hc | ⟨hm, poem, hf, hs, hc⟩
    · simp only [runTasks, hc]
      obtain ⟨h1, h2, h3⟩ := ih st hrest
      refine ⟨h1, h2, ?_⟩
      rw [countReports_cons, h3]
      simp
    · simp only [runTasks, hc]
      set st2 : CrawlState :=
        ⟨st.downloaded ++ [t.title], st.saved ++ [(t.title, formatPoem t.title poet poem)]⟩
        with hst2
      obtain ⟨h1, h2, h3⟩ := ih st2 hrest
      refine ⟨?_, ?_, ?_⟩
      · rw [h1, hst2]
        show (st.saved ++ [(t.title, formatPoem t.title poet poem)]).filter
            (fun p => p.1 = title) = _
        rw [filter_title_snoc]
        simp [hne]
      · rw [h2, hst2]
        show title ∈ st.downloaded ++ [t.title] ↔ title ∈ st.downloaded
        simp [List.mem_append, Ne.symm hne]
      · rw [countReports_cons, h3]
        simp [hne]

theorem runTasks_reports_count (poet title : String) (ts : List Task) (st : CrawlState) :
    countSaved (runTasks poet ts st).1 title
      = countSaved st title + countReports (runTasks poet ts st).2 title := by
  induction ts generalizing st with
  | nil => simp [runTasks, countReports]
  | cons t rest ih =>
    rcases downloadPoem_cases poet t st with hc | ⟨hm, poem, hf, hs, hc⟩
    · simp only [runTasks, hc]
      rw [countReports_cons, ih st]
      simp
    · simp only [runTasks, hc]
      set st2 : CrawlState :=
        ⟨st.downloaded ++ [t.title], st.saved ++ [(t.title, formatPoem t.title poet poem)]⟩
        with hst2
      rw [countReports_cons, ih st2]
      have hcs : countSaved st2 title
          = countSaved st title + (if t.title = title then 1 else 0) := by
        rw [countSaved_filter, countSaved_filter, hst2]
        show ((st.saved ++ [(t.title, formatPoem t.title poet poem)]).filter
            (fun p => p.1 = title)).length = _
        rw [filter_title_snoc, List.length_append]
        by_cases hx : t.title = title <;> simp [hx]
      rw [hcs]
      by_cases hx : t.title = title <;> simp [hx]
      omega

theorem runTasks_saved_le_one (poet title : String) (ts : List Task) (st : CrawlState)
    (hinv : title ∉ st.downloaded → countSaved st title = 0)
    (hle : countSaved st title ≤ 1) :
    countSaved (runTasks poet ts st).1 title ≤ 1 := by
  induction ts generalizing st with
  | nil => exact hle
  | cons t rest ih =>
    rcases downloadPoem_cases poet t st with hc | ⟨hm, poem, hf, hs, hc⟩
    · simp only [runTasks, hc]
      exact ih st hinv hle
    · simp only [runTasks, hc]
      set st2 : CrawlState :=
        ⟨st.downloaded ++ [t.title], st.saved ++ [(t.title, formatPoem t.title poet poem)]⟩
        with hst2
      have hcs : countSaved st2 title
          = countSaved st title + (if t.title = title then 1 else 0) := by
        rw [countSaved_filter, countSaved_filter, hst2]
        show ((st.saved ++ [(t.title, formatPoem t.title poet poem)]).filter
            (fun p => p.1 = title)).length = _
        rw [filter_title_snoc, List.length_append]
        by_cases hx : t.title = title <;> simp [hx]
      apply ih st2
      · intro hnot
        have hx : t.title ≠ title := by
          intro he
          exact hnot (by rw [hst2, ← he]; exact List.mem_append.mpr (Or.inr (by simp)))
        have hnot1 : title ∉ st.downloaded := by
          intro hmem
          exact hnot (by rw [hst2]; exact List.mem_append.mpr (Or.inl hmem))
        rw [hcs, hinv hnot1]
        simp [hx]
      · by_cases hx : t.title = title
        · have hnot1 : title ∉ st.downloaded := by rw [← hx]; exact hm
          rw [hcs, hinv hnot1, hx]
          simp
        · rw [hcs]
          simp [hx]
          omega


theorem dedupe_serialized_aux (poet title : String) (post : List Task) (t : Task)
    (poem : List String) (st1 : CrawlState)
    (ht : t.title = title) (hf : t.fetch = Except.ok poem) (hs : t.save = Except.ok ())
    (hnm : title ∉ st1.downloaded) :
    ((runTasks poet (t :: post) st1).1.saved.filter (fun p => p.1 = title)
        = st1.saved.filter (fun p => p.1 = title) ++ [(title, formatPoem title poet poem)]) ∧
    countReports (runTasks poet (t :: post) st1).2 title
      = 1 + countReports (runTasks poet post
          ⟨st1.downloaded ++ [t.title],
           st1.saved ++ [(t.title, formatPoem t.title poet poem)]⟩).2 title := by
  subst ht
  have hsucc := downloadPoem_succ poet t st1 poem hnm hf hs
  have hcons : runTasks poet (t :: post) st1
      = ((runTasks poet post
            ⟨st1.downloaded ++ [t.title],
             st1.saved ++ [(t.title, formatPoem t.title poet poem)]⟩).1,
          (t.title, true) :: (runTasks poet post
            ⟨st1.downloaded ++ [t.title],
             st1.saved ++ [(t.title, formatPoem t.title poet poem)]⟩).2) := by
    simp only [runTasks, hsucc]
  obtain ⟨hb1, hb2, hb3⟩ := runTasks_blocked poet t.title post
    ⟨st1.downloaded ++ [t.title], st1.saved ++ [(t.title, formatPoem t.title poet poem)]⟩
    (List.mem_append.mpr (Or.inr (by simp)))
  constructor
  · rw [hcons]
    show (runTasks poet post
        ⟨st1.downloaded ++ [t.title],
         st1.saved ++ [(t.title, formatPoem t.title poet poem)]⟩).1.saved.filter
          (fun p => p.1 = t.title) = _
    rw [hb1]
    show (st1.saved ++ [(t.title, formatPoem t.title poet poem)]).filter
        (fun p => p.1 = t.title) = _
    rw [filter_title_snoc]
    simp
  · rw [hcons]
    show countReports ((t.title, true) :: _) t.title = _
    rw [countReports_cons]
    simp

/-- C1 (amended): provided the dispatched tasks execute serially (no
interleaving between one task's dedupe check and its record step — the
`runTasks` model), a title discovered on several listing pages is persisted
at most once per run; when the first-dispatched task of a title fetches and
saves successfully, exactly that occurrence's file is persisted (first-seen
wins) and exactly one verbose "saved" report is emitted for the title; and
every title, whatever its tasks' outcomes, is saved at most once. -/
theorem dedupe_serialized (poet title : String) (pre post : List Task) (t : Task)
    (poem : List String)
    (hpre : ∀ u ∈ pre, u.title ≠ title) (ht : t.title = title)
    (hf : t.fetch = Except.ok poem) (hs : t.save = Except.ok ()) :
    ((runTasks poet (pre ++ t :: post) ⟨[], []⟩).1.saved.filter (fun p => p.1 = title)
        = [(title, formatPoem title poet poem)]) ∧
    countSaved (runTasks poet (pre ++ t :: post) ⟨[], []⟩).1 title = 1 ∧
    countReports (runTasks poet (pre ++ t :: post) ⟨[], []⟩).2 title = 1 ∧
    (∀ s : String, countSaved (runTasks poet (pre ++ t :: post) ⟨[], []⟩).1 s ≤ 1) := by
  have happ := runTasks_append poet pre (t :: post) (⟨[], []⟩ : CrawlState)
  obtain ⟨hp1, hp2, hp3⟩ := runTasks_other poet title pre ⟨[], []⟩ hpre
  have hnm : title ∉ (runTasks poet pre (⟨[], []⟩ : CrawlState)).1.downloaded := by
    rw [hp2]
    simp
  obtain ⟨ha1, ha2⟩ := dedupe_serialized_aux poet title post t poem
    (runTasks poet pre (⟨[], []⟩ : CrawlState)).1 ht hf hs hnm
  have hfst : (runTasks poet (pre ++ t :: post) (⟨[], []⟩ : CrawlState)).1
      = (runTasks poet (t :: post) (runTasks poet pre (⟨[], []⟩ : CrawlState)).1).1 := by
    rw [happ]
  have hsnd : (runTasks poet (pre ++ t :: post) (⟨[], []⟩ : CrawlState)).2
      = (runTasks poet pre (⟨[], []⟩ : CrawlState)).2
        ++ (runTasks poet (t :: post) (runTasks poet pre (⟨[], []⟩ : CrawlState)).1).2 := by
    rw [happ]
  have hfilter : (runTasks poet (pre ++ t :: post) (⟨[], []⟩ : CrawlState)).1.saved.filter
      (fun p => p.1 = title) = [(title, formatPoem title poet poem)] := by
    rw [hfst, ha1, hp1]
    rfl
  have hreports : countReports (runTasks poet (pre ++ t :: post) (⟨[], []⟩ : CrawlState)).2 title
      = 1 := by
    rw [hsnd, countReports_append, hp3, ha2]
    obtain ⟨-, -, hb3⟩ := runTasks_blocked poet title post
      ⟨(runTasks poet pre (⟨[], []⟩ : CrawlState)).1.downloaded ++ [t.title],
       (runTasks poet pre (⟨[], []⟩ : CrawlState)).1.saved
         ++ [(t.title, formatPoem t.title poet poem)]⟩
      (List.mem_append.mpr (Or.inr (by simp [ht])))
    rw [hb3]
  refine ⟨hfilter, ?_, hreports, ?_⟩
  · rw [countSaved_filter, hfilter]
    rfl
  · intro s
    exact runTasks_saved_le_one poet s (pre ++ t :: post) ⟨[], []⟩ (fun _ => rfl)
      (Nat.zero_le 1)

/-- C1 witness: the spec's duplicate-listing scenario serialized — tasks
Dusk, Rain, Rain: Rain is persisted once, with the first Rain task's
content, and reported once. -/
theorem dedupe_serialized_witness :
    ((runTasks "P" ([⟨"Dusk", Except.ok ["dim"], Except.ok ()⟩]
        ++ ⟨"Rain", Except.ok ["drip"], Except.ok ()⟩
          :: [⟨"Rain", Except.ok ["late"], Except.ok ()⟩]) ⟨[], []⟩).1.saved.filter
            (fun p => p.1 = "Rain")
        = [("Rain", formatPoem "Rain" "P" ["drip"])]) ∧
    countSaved (runTasks "P" ([⟨"Dusk", Except.ok ["dim"], Except.ok ()⟩]
        ++ ⟨"Rain", Except.ok ["drip"], Except.ok ()⟩
          :: [⟨"Rain", Except.ok ["late"], Except.ok ()⟩]) ⟨[], []⟩).1 "Rain" = 1 ∧
    countReports (runTasks "P" ([⟨"Dusk", Except.ok ["dim"], Except.ok ()⟩]
        ++ ⟨"Rain", Except.ok ["drip"], Except.ok ()⟩
          :: [⟨"Rain", Except.ok ["late"], Except.ok ()⟩]) ⟨[], []⟩).2 "Rain" = 1 := by
  have h := dedupe_serialized "P" "Rain" [⟨"Dusk", Except.ok ["dim"], Except.ok ()⟩]
    [⟨"Rain", Except.ok ["late"], Except.ok ()⟩] ⟨"Rain", Except.ok ["drip"], Except.ok ()⟩
    ["drip"] (by decide) rfl rfl rfl
  exact ⟨h.1, h.2.1, h.2.2.1⟩

/-- C1 (counterexample): the dedupe check (line 85) and the record step
(line 103) of `download_poem` are not atomic; under the thread pool, two
tasks for the same title "Rain" dispatched from two listing pages can both
pass the check before either records — the schedule checks task 0, checks
task 1, then completes both — after which the title's file has been written
twice and both futures resolve `True`, so two verbose "saved" reports are
emitted.  This refutes the claim that for every run the title is persisted
exactly once with exactly one report. -/
theorem dedupe_race_cex :
    countSaved (runSched "P"
      [⟨"Rain", Except.ok ["drip"], Except.ok ()⟩, ⟨"Rain", Except.ok ["drip"], Except.ok ()⟩]
      [0, 1, 0, 1]).st "Rain" = 2 ∧
    ((runSched "P"
      [⟨"Rain", Except.ok ["drip"], Except.ok ()⟩, ⟨"Rain", Except.ok ["drip"], Except.ok ()⟩]
      [0, 1, 0, 1]).procs.filter (fun p => p.result)).length = 2 := by
  exact ⟨by decide, by decide⟩

end PoemHunter
